import Mathlib

/-!
Verification of the bounded per-chat conversation memory, prompt catalog and
message-chunking logic of the role-bot repository (src/config.py, src/memory.py,
src/main.py).  Python strings are modelled as `List Char` where character-level
slicing matters (`split_message`) and as `String` where they are opaque payloads
(the memory store).  The JSON-backed store is modelled as an association list
together with an explicit in-memory cache and backing file, mirroring
`_memory_cache` / `MEMORY_JSON_PATH`.
-/

namespace RoleBot

/-! ## config.py -/

/-- config.py: `MAX_USER_MESSAGES: int = 10`. -/
def MAX_USER_MESSAGES : Nat := 10

/-- config.py: `MAX_ASSISTANT_MESSAGES: int = 10`. -/
def MAX_ASSISTANT_MESSAGES : Nat := 10

/-! ## main.py: split_message -/

/-- Python `block.rfind("\n")`: index of the last newline in the list, `-1` when
there is none. -/
def rfindNL : List Char → Int
  | [] => -1
  | c :: rest =>
    let r := rfindNL rest
    if 0 ≤ r then r + 1
    else if c = '\n' then 0 else -1

/-- The cut position computed inside the `while` loop of `split_message`: the
position after the last newline of `block = rest[:max_length]` when that newline
lies past the midpoint (`last_newline > max_length // 2`), else a hard cut at
`max_length`. -/
def splitCut (maxLength : Nat) (rest : List Char) : Nat :=
  let block := rest.take maxLength
  let lastNewline := rfindNL block
  if ((maxLength / 2 : Nat) : Int) < lastNewline then lastNewline.toNat + 1
  else maxLength

/-- One pass of the `while rest:` loop of `split_message` (src/main.py), with
explicit fuel standing for the number of remaining iterations; `none` means the
loop did not finish within the given fuel.  Python's `rest[:max_length]`,
`rest[cut:]` and `.lstrip("\n")` become `take`, `drop` and `dropWhile`. -/
def splitLoop (maxLength : Nat) : Nat → List Char → Option (List (List Char))
  | 0, rest => if rest.isEmpty then some [] else none
  | fuel + 1, rest =>
    if rest.isEmpty then some []
    else if rest.length ≤ maxLength then some [rest]
    else
      let cut := splitCut maxLength rest
      (splitLoop maxLength fuel ((rest.drop cut).dropWhile (fun c => c = '\n'))).map
        (fun chunks => rest.take cut :: chunks)

/-- src/main.py `split_message(text, max_length)`: split a long text into chunks
no longer than `max_length`, preferring line boundaries past the midpoint.  The
loop is run with fuel `text.length`; a `none` result means the loop did not
terminate within that bound (which, as proved below, happens only when
`maxLength = 0`). -/
def split_message (text : List Char) (maxLength : Nat) : Option (List (List Char)) :=
  if text.length ≤ maxLength then some (if text.isEmpty then [] else [text])
  else splitLoop maxLength text.length text

/-- The concrete 20-character text `"aaaaaa\nbbbbbb\ncccccc"` on which
`split_message` cuts at both newlines and produces three pieces, although two
pieces of length at most 10 suffice. -/
def c3Text : List Char :=
  List.replicate 6 'a' ++ '\n' :: (List.replicate 6 'b' ++ '\n' :: List.replicate 6 'c')

/-! ## memory.py: chat state and the JSON-backed store -/

/-- One chat's entry in memory.json.  Fields mirror the dict created by
`get_chat_state`; the payload strings are opaque, so `String` suffices. -/
structure ChatState where
  mode : Option String
  user_messages : List String
  assistant_messages : List String
  input_tokens : Int
  output_tokens : Int
deriving DecidableEq

/-- The default entry `get_chat_state` creates on first access. -/
def defaultChatState : ChatState :=
  { mode := none
    user_messages := []
    assistant_messages := []
    input_tokens := 0
    output_tokens := 0 }

/-- The JSON object mapping chat-id string to chat state, as an insertion-ordered
association list (a Python dict keeps insertion order). -/
abbrev Store := List (String × ChatState)

/-- Dict lookup `data[key]` / `key in data`. -/
def storeFind : Store → String → Option ChatState
  | [], _ => none
  | (k, v) :: rest, key => if k = key then some v else storeFind rest key

/-- Dict update `data[key] = v`: replace in place when present, append when new
(Python dict insertion-order semantics). -/
def storeSet : Store → String → ChatState → Store
  | [], key, v => [(key, v)]
  | (k, w) :: rest, key, v =>
    if k = key then (key, v) :: rest else (k, w) :: storeSet rest key v

/-- The module-level state of memory.py: the in-memory `_memory_cache` and the
contents of the file at `MEMORY_JSON_PATH` (abstracting the JSON text as the
mapping it encodes; a missing or unparsable file is the empty mapping, as in
`_load_json`). -/
structure MemState where
  cache : Store
  file : Store
deriving DecidableEq

/-- memory.py `_chat_key`. -/
def _chat_key (chat_id : Int) : String := toString chat_id

/-- memory.py `_get_memory_data`: when the cache is empty (falsy dict), load the
file into it; return the data together with the updated module state. -/
def _get_memory_data (s : MemState) : Store × MemState :=
  let data := if s.cache.isEmpty then s.file else s.cache
  (data, { s with cache := data })

/-- memory.py `_persist_memory`: write the cache to the file. -/
def _persist_memory (s : MemState) : MemState :=
  { s with file := s.cache }

/-- memory.py `get_chat_state`: look the chat up in the data, inserting a default
entry when absent; no call to `_persist_memory` happens here. -/
def get_chat_state (chat_id : Int) (s : MemState) : ChatState × MemState :=
  let key := _chat_key chat_id
  let data := (_get_memory_data s).1
  let s₁ := (_get_memory_data s).2
  match storeFind data key with
  | some st => (st, s₁)
  | none =>
    let st := defaultChatState
    (st, { s₁ with cache := storeSet data key st })

/-- Python `l[-n:]` for `n > 0`: the last `n` elements. -/
def lastSlice (n : Nat) (l : List α) : List α := l.drop (l.length - n)

/-- memory.py `append_user_message`: push the text, truncate to the last
`MAX_USER_MESSAGES` entries, persist. -/
def append_user_message (chat_id : Int) (text : String) (s : MemState) : MemState :=
  let st := (get_chat_state chat_id s).1
  let s₁ := (get_chat_state chat_id s).2
  let st := { st with user_messages := lastSlice MAX_USER_MESSAGES (st.user_messages ++ [text]) }
  _persist_memory { s₁ with cache := storeSet s₁.cache (_chat_key chat_id) st }

/-- memory.py `append_assistant_message`: symmetric, bound `MAX_ASSISTANT_MESSAGES`. -/
def append_assistant_message (chat_id : Int) (text : String) (s : MemState) : MemState :=
  let st := (get_chat_state chat_id s).1
  let s₁ := (get_chat_state chat_id s).2
  let st := { st with assistant_messages := lastSlice MAX_ASSISTANT_MESSAGES (st.assistant_messages ++ [text]) }
  _persist_memory { s₁ with cache := storeSet s₁.cache (_chat_key chat_id) st }

/-- One `{"role": ..., "content": ...}` entry of the OpenAI payload. -/
structure ApiMessage where
  role : String
  content : String
deriving DecidableEq

/-- memory.py `get_messages_for_api`: system entry, then for `i in range(n)` the
i-th user and assistant messages, then the last user message when the user
window is the longer one. -/
def get_messages_for_api (chat_id : Int) (system_prompt : String) (s : MemState) :
    List ApiMessage × MemState :=
  let state := (get_chat_state chat_id s).1
  let s₁ := (get_chat_state chat_id s).2
  let user_msgs := state.user_messages
  let assistant_msgs := state.assistant_messages
  let n := min user_msgs.length assistant_msgs.length
  let messages :=
    ApiMessage.mk "system" system_prompt ::
      ((List.range n).flatMap fun i =>
        [ApiMessage.mk "user" (user_msgs.getD i ""),
         ApiMessage.mk "assistant" (assistant_msgs.getD i "")]) ++
      (if n < user_msgs.length then [ApiMessage.mk "user" user_msgs.getLast!] else [])
  (messages, s₁)

/-- memory.py `reset_chat`: when the chat key exists, empty both windows and
persist; otherwise do nothing (no persist). -/
def reset_chat (chat_id : Int) (s : MemState) : MemState :=
  let key := _chat_key chat_id
  let data := (_get_memory_data s).1
  let s₁ := (_get_memory_data s).2
  match storeFind data key with
  | some st =>
    _persist_memory
      { s₁ with cache := storeSet data key { st with user_messages := [], assistant_messages := [] } }
  | none => s₁

/-- memory.py `get_chat_stats`: the cumulative `(input_tokens, output_tokens)`
of the chat (the state always carries integer counters, so Python's
`state.get(...) or 0` is the value itself). -/
def get_chat_stats (chat_id : Int) (s : MemState) : (Int × Int) × MemState :=
  let st := (get_chat_state chat_id s).1
  ((st.input_tokens, st.output_tokens), (get_chat_state chat_id s).2)

/-- memory.py `add_tokens`: add the deltas to the counters and persist. -/
def add_tokens (chat_id : Int) (input_tokens output_tokens : Int) (s : MemState) : MemState :=
  let st := (get_chat_state chat_id s).1
  let s₁ := (get_chat_state chat_id s).2
  let st := { st with
    input_tokens := st.input_tokens + input_tokens
    output_tokens := st.output_tokens + output_tokens }
  _persist_memory { s₁ with cache := storeSet s₁.cache (_chat_key chat_id) st }

/-! ## memory.py: prompt catalog -/

/-- One value of the `prompts` mapping in prompts.json; `system_prompt` is
optional because the JSON object may lack the key (`mode.get("system_prompt", ...)`). -/
structure PromptMode where
  name : Option String
  description : Option String
  system_prompt : Option String
deriving DecidableEq

/-- The prompts.json document as read from disk: both top-level keys may be
absent (`data.get("prompts", {})`, `data.get("default_prompt", "assistant")`). -/
structure PromptsDoc where
  default_prompt : Option String
  prompts : List (String × PromptMode)
deriving DecidableEq

/-- Mapping lookup in the prompt catalog. -/
def promptsFind : List (String × PromptMode) → String → Option PromptMode
  | [], _ => none
  | (k, v) :: rest, key => if k = key then some v else promptsFind rest key

/-- The value `load_prompts` returns: a resolved default key plus the mapping. -/
structure PromptsData where
  default_prompt : String
  prompts : List (String × PromptMode)
deriving DecidableEq

/-- memory.py `load_prompts`: read `prompts` and `default_prompt` with their
defaults; when the default key is not in `prompts`, replace it with
`next(iter(prompts), "assistant")`, i.e. the first key, or `"assistant"` for an
empty mapping. -/
def load_prompts (doc : PromptsDoc) : PromptsData :=
  let prompts := doc.prompts
  let default₀ := doc.default_prompt.getD "assistant"
  let default :=
    if (promptsFind prompts default₀).isNone then
      ((prompts.head?.map Prod.fst).getD "assistant")
    else default₀
  { default_prompt := default, prompts := prompts }

/-- The hard-coded fallback system prompt of `get_system_prompt`. -/
def FALLBACK_SYSTEM_PROMPT : String := "Ты — полезный помощник."

/-- The first line of memory.py `get_system_prompt`: Python
`mode_key = mode_key or prompts_data.get("default_prompt", "assistant")`, where
`or` treats both `None` and the empty string as missing (falsy). -/
def resolveModeKey (prompts_data : PromptsData) (mode_key : Option String) : String :=
  match mode_key with
  | some k => if k = "" then prompts_data.default_prompt else k
  | none => prompts_data.default_prompt

/-- memory.py `get_system_prompt`: resolve the mode key, look it up, fall back
to the `"assistant"` entry, then to the hard-coded string. -/
def get_system_prompt (prompts_data : PromptsData) (mode_key : Option String) : String :=
  let key := resolveModeKey prompts_data mode_key
  let mode := (promptsFind prompts_data.prompts key).getD
    ((promptsFind prompts_data.prompts "assistant").getD ⟨none, none, none⟩)
  mode.system_prompt.getD FALLBACK_SYSTEM_PROMPT

/-! ## Operation sequences over the store -/

/-- An append operation on the store, for stating the FIFO-window invariant over
arbitrary operation sequences. -/
inductive MemOp
  | user (chat_id : Int) (text : String)
  | assistant (chat_id : Int) (text : String)
deriving DecidableEq

/-- Run one append. -/
def applyOp : MemOp → MemState → MemState
  | .user chat_id text, s => append_user_message chat_id text s
  | .assistant chat_id text, s => append_assistant_message chat_id text s

/-- Run a sequence of appends, oldest first. -/
def applyOps (ops : List MemOp) (s : MemState) : MemState :=
  ops.foldl (fun s op => applyOp op s) s

/-- Both windows of a chat state are within their configured bounds. -/
def boundedState (st : ChatState) : Prop :=
  st.user_messages.length ≤ MAX_USER_MESSAGES ∧
    st.assistant_messages.length ≤ MAX_ASSISTANT_MESSAGES

/-- Every entry of a store has bounded windows. -/
def boundedStore (store : Store) : Prop :=
  ∀ k st, storeFind store k = some st → boundedState st

/-- Both the cache and the backing file are bounded. -/
def boundedMem (s : MemState) : Prop :=
  boundedStore s.cache ∧ boundedStore s.file

/-! ## Lemmas about split_message -/

theorem rfindNL_lt_length (l : List Char) : rfindNL l < (l.length : Int) := by
  induction l with
  | nil => simp [rfindNL]
  | cons c rest ih =>
    simp only [rfindNL, List.length_cons]
    split
    · omega
    · split <;> omega

theorem rfindNL_of_not_mem {l : List Char} (h : '\n' ∉ l) : rfindNL l = -1 := by
  induction l with
  | nil => rfl
  | cons c rest ih =>
    simp only [List.mem_cons, not_or] at h
    simp only [rfindNL, ih h.2]
    simp [Ne.symm h.1]

theorem splitCut_pos (maxLength : Nat) (hmax : 1 ≤ maxLength) (rest : List Char) :
    1 ≤ splitCut maxLength rest := by
  simp only [splitCut]
  split <;> omega

theorem splitCut_le (maxLength : Nat) (rest : List Char) (h : maxLength < rest.length) :
    splitCut maxLength rest ≤ maxLength := by
  simp only [splitCut]
  split
  next hlt =>
    have hlt2 := rfindNL_lt_length (rest.take maxLength)
    rw [List.length_take] at hlt2
    omega
  · exact Nat.le_refl _

theorem dropWhile_nl_of_not_mem {l : List Char} (h : '\n' ∉ l) :
    l.dropWhile (fun c => c = '\n') = l := by
  cases l with
  | nil => rfl
  | cons c rest =>
    have hc : ¬(c = '\n') := fun hc => h (by simp [hc])
    simp [List.dropWhile_cons, hc]

theorem splitLoop_isSome (maxLength : Nat) (hmax : 1 ≤ maxLength) :
    ∀ (fuel : Nat) (rest : List Char), rest.length ≤ fuel →
      (splitLoop maxLength fuel rest).isSome := by
  intro fuel
  induction fuel with
  | zero =>
    intro rest h
    have hnil : rest = [] := by
      cases rest
      · rfl
      · simp at h
    subst hnil
    simp [splitLoop]
  | succ fuel ih =>
    intro rest h
    simp only [splitLoop]
    split
    · rfl
    next he =>
      split
      · rfl
      next hle =>
        rw [Option.isSome_map']
        apply ih
        have hcut := splitCut_pos maxLength hmax rest
        have hdw :=
          (List.dropWhile_sublist (l := rest.drop (splitCut maxLength rest))
            (fun c => c = '\n')).length_le
        rw [List.length_drop] at hdw
        omega

theorem splitLoop_pieces (maxLength : Nat) :
    ∀ (fuel : Nat) (rest : List Char) (cs : List (List Char)),
      splitLoop maxLength fuel rest = some cs →
      ∀ c ∈ cs, c.length ≤ maxLength := by
  intro fuel
  induction fuel with
  | zero =>
    intro rest cs h c hc
    simp only [splitLoop] at h
    split at h
    · simp only [Option.some.injEq] at h
      subst h
      simp at hc
    · simp at h
  | succ fuel ih =>
    intro rest cs h c hc
    simp only [splitLoop] at h
    split at h
    · simp only [Option.some.injEq] at h
      subst h
      simp at hc
    next he =>
      split at h
      next hle =>
        simp only [Option.some.injEq] at h
        subst h
        simp only [List.mem_singleton] at hc
        subst hc
        exact hle
      next hle =>
        cases hrec : splitLoop maxLength fuel
            ((rest.drop (splitCut maxLength rest)).dropWhile (fun c => c = '\n')) with
        | none => rw [hrec] at h; simp at h
        | some cs' =>
          rw [hrec] at h
          simp only [Option.map_some', Option.some.injEq] at h
          subst h
          rcases List.mem_cons.mp hc with hceq | hmem
          · subst hceq
            rw [List.length_take]
            have hle2 := splitCut_le maxLength rest (by omega)
            omega
          · exact ih _ _ hrec c hmem

theorem splitLoop_step_noNL (maxLength fuel : Nat) (rest : List Char)
    (hgt : maxLength < rest.length) (hnl : '\n' ∉ rest) :
    splitLoop maxLength (fuel + 1) rest =
      (splitLoop maxLength fuel (rest.drop maxLength)).map
        (fun chunks => rest.take maxLength :: chunks) := by
  have hne : rest ≠ [] := by
    intro h
    subst h
    simp at hgt
  have hcut : splitCut maxLength rest = maxLength := by
    simp only [splitCut]
    rw [rfindNL_of_not_mem (fun hm => hnl (List.mem_of_mem_take hm))]
    split
    next hlt => omega
    · rfl
  simp only [splitLoop, hcut,
    dropWhile_nl_of_not_mem (fun hm => hnl (List.mem_of_mem_drop hm))]
  rw [if_neg (by simp [List.isEmpty_iff, hne]), if_neg (by omega)]

/-- The `len(rest) <= max_length` exit of the loop: one final chunk. -/
theorem splitLoop_base (maxLength fuel : Nat) (rest : List Char) (hne : rest ≠ [])
    (hle : rest.length ≤ maxLength) : splitLoop maxLength (fuel + 1) rest = some [rest] := by
  simp only [splitLoop]
  rw [if_neg (by simp [List.isEmpty_iff, hne]), if_pos hle]

/-- Shared evaluation of `split_message` at length 9000 without newlines: with
no newline in sight every cut is a hard cut at 4096, so the result is the three
chunks at offsets 0, 4096 and 8192. -/
theorem split_message_noNL_9000 (text : List Char) (h9 : text.length = 9000)
    (hnl : '\n' ∉ text) :
    split_message text 4096 =
      some [text.take 4096, (text.drop 4096).take 4096, text.drop 8192] := by
  unfold split_message
  rw [if_neg (by omega), h9]
  have h1 : (9000 : Nat) = 8999 + 1 := by norm_num
  rw [h1, splitLoop_step_noNL 4096 8999 text (by omega) hnl]
  have hnl1 : '\n' ∉ text.drop 4096 := fun hm => hnl (List.mem_of_mem_drop hm)
  have hlen1 : (text.drop 4096).length = 4904 := by simp [h9]
  have h2 : (8999 : Nat) = 8998 + 1 := by norm_num
  rw [h2, splitLoop_step_noNL 4096 8998 (text.drop 4096) (by omega) hnl1]
  rw [List.drop_drop]
  have hd : (4096 + 4096 : Nat) = 8192 := by norm_num
  rw [hd]
  have hlen2 : (text.drop 8192).length = 808 := by simp [h9]
  have hne2 : text.drop 8192 ≠ [] := by
    intro h
    rw [h] at hlen2
    simp at hlen2
  have h3 : (8998 : Nat) = 8997 + 1 := by norm_num
  rw [h3, splitLoop_base 4096 8997 (text.drop 8192) hne2 (by omega)]
  rfl

/-- Claim C3, counterexample: `split_message` does not always produce the fewest
possible pieces.  On the 20-character `c3Text` with `maxLength = 10` it returns
three pieces, yet splitting the same text after position 10 gives two ordered
pieces that each respect the limit. -/
theorem claim_C3_counterexample :
    (split_message c3Text 10).map List.length = some 3 ∧
      (c3Text.take 10).length ≤ 10 ∧ (c3Text.drop 10).length ≤ 10 ∧
      c3Text.take 10 ++ c3Text.drop 10 = c3Text := by decide

/-- Claim C3 (amended): for every text and every `maxLength ≥ 1`,
`split_message` returns ordered pieces each of length at most `maxLength` (but
not necessarily the fewest possible); splitting the empty text yields `[]`, and
a non-empty text already within the limit yields the single piece `[text]`. -/
theorem claim_C3_split_pieces (text : List Char) (maxLength : Nat)
    (hmax : 1 ≤ maxLength) :
    ∃ cs, split_message text maxLength = some cs ∧
      (∀ c ∈ cs, c.length ≤ maxLength) ∧
      (text = [] → cs = []) ∧
      (text ≠ [] → text.length ≤ maxLength → cs = [text]) := by
  unfold split_message
  by_cases hle : text.length ≤ maxLength
  · refine ⟨if text.isEmpty then [] else [text], by simp [hle], ?_, ?_, ?_⟩
    · intro c hc
      by_cases hemp : text = []
      · subst hemp
        simp at hc
      · rw [if_neg (by simp [List.isEmpty_iff, hemp])] at hc
        simp only [List.mem_singleton] at hc
        subst hc
        exact hle
    · intro h
      subst h
      simp
    · intro hne _
      simp [List.isEmpty_iff, hne]
  · have hs := splitLoop_isSome maxLength hmax text.length text (Nat.le_refl _)
    obtain ⟨cs, hcs⟩ := Option.isSome_iff_exists.mp hs
    refine ⟨cs, by simp [hle, hcs], fun c hc => splitLoop_pieces maxLength _ _ _ hcs c hc,
      ?_, ?_⟩
    · intro h
      subst h
      simp at hle
    · intro _ h
      exact absurd h hle

/-- Witness for `claim_C3_split_pieces` at the spec's own example input. -/
theorem claim_C3_split_pieces_witness :
    (1 : Nat) ≤ 4096 ∧
      ∃ cs, split_message ['s', 'h', 'o', 'r', 't'] 4096 = some cs ∧
        (∀ c ∈ cs, c.length ≤ 4096) ∧
        (['s', 'h', 'o', 'r', 't'] = ([] : List Char) → cs = []) ∧
        (['s', 'h', 'o', 'r', 't'] ≠ ([] : List Char) →
          (['s', 'h', 'o', 'r', 't'] : List Char).length ≤ 4096 → cs = [['s', 'h', 'o', 'r', 't']]) :=
  ⟨by decide, claim_C3_split_pieces ['s', 'h', 'o', 'r', 't'] 4096 (by decide)⟩

/-- Claim C4, counterexample: on a 9000-character newline-free input with
`maxLength = 4096` the function does not return two pieces of lengths 4096 and
4904 — a 4904-character piece would itself exceed the limit. -/
theorem claim_C4_counterexample :
    (split_message (List.replicate 9000 'a') 4096).map (List.map List.length) ≠
      some [4096, 4904] := by
  rw [split_message_noNL_9000 (List.replicate 9000 'a') (by rw [List.length_replicate])
    (by rw [List.mem_replicate]; decide)]
  rw [List.take_replicate, List.drop_replicate, List.take_replicate, List.drop_replicate]
  simp only [Option.map_some', List.map_cons, List.map_nil, List.length_replicate,
    ne_eq, Option.some.injEq]
  norm_num

/-- Claim C4 (amended): for every 9000-character input containing no newline,
`split_message` with `maxLength = 4096` returns exactly three pieces, of lengths
4096, 4096 and 808. -/
theorem claim_C4_split_9000 (text : List Char) (h9 : text.length = 9000)
    (hnl : '\n' ∉ text) :
    (split_message text 4096).map (List.map List.length) = some [4096, 4096, 808] := by
  rw [split_message_noNL_9000 text h9 hnl]
  simp only [Option.map_some', List.map_cons, List.map_nil, List.length_take,
    List.length_drop, h9, Option.some.injEq]
  norm_num

/-- Witness for `claim_C4_split_9000` at the concrete input `replicate 9000 'a'`. -/
theorem claim_C4_split_9000_witness :
    (List.replicate 9000 'a').length = 9000 ∧ '\n' ∉ List.replicate 9000 'a' ∧
      (split_message (List.replicate 9000 'a') 4096).map (List.map List.length) =
        some [4096, 4096, 808] :=
  ⟨by rw [List.length_replicate], by rw [List.mem_replicate]; decide,
    claim_C4_split_9000 (List.replicate 9000 'a') (by rw [List.length_replicate])
      (by rw [List.mem_replicate]; decide)⟩

/-- Claim C10: `split_message` terminates (the loop finishes within
`text.length` iterations) whenever `maxLength ≥ 1`; the precondition is
necessary: at `maxLength = 0` the loop never finishes on the input `"a"`, no
matter how much fuel it is given, because an iteration removes no characters. -/
theorem claim_C10_termination :
    (∀ (text : List Char) (maxLength : Nat), 1 ≤ maxLength →
      (split_message text maxLength).isSome) ∧
    (∀ fuel : Nat, splitLoop 0 fuel ['a'] = none) := by
  constructor
  · intro text maxLength hmax
    unfold split_message
    split
    · rfl
    · exact splitLoop_isSome maxLength hmax text.length text (Nat.le_refl _)
  · intro fuel
    induction fuel with
    | zero => rfl
    | succ fuel ih =>
      have hstep : splitLoop 0 (fuel + 1) ['a'] =
          (splitLoop 0 fuel ['a']).map (fun chunks => ([] : List Char) :: chunks) := rfl
      rw [hstep, ih]
      rfl

/-- Witness for `claim_C10_termination` at a concrete text and limit. -/
theorem claim_C10_termination_witness :
    (1 : Nat) ≤ 4096 ∧ (split_message ['h', 'i'] 4096).isSome :=
  ⟨by decide, claim_C10_termination.1 ['h', 'i'] 4096 (by decide)⟩

/-! ## Lemmas about the store -/

theorem storeFind_storeSet (store : Store) (key : String) (v : ChatState) (k : String) :
    storeFind (storeSet store key v) k = if key = k then some v else storeFind store k := by
  induction store with
  | nil =>
    simp only [storeSet, storeFind]
  | cons p rest ih =>
    obtain ⟨k', w⟩ := p
    by_cases h : k' = key
    · subst h
      simp only [storeSet, if_pos rfl]
      by_cases hk : k' = k <;> simp [storeFind, hk]
    · simp only [storeSet, if_neg h]
      by_cases hk : k' = k
      · subst hk
        have hkey : ¬(key = k') := fun heq => h heq.symm
        simp [storeFind, hkey]
      · simp [storeFind, hk, ih]

theorem storeSet_isEmpty (store : Store) (key : String) (v : ChatState) :
    (storeSet store key v).isEmpty = false := by
  cases store with
  | nil => rfl
  | cons p rest =>
    obtain ⟨k', w⟩ := p
    simp only [storeSet]
    split <;> rfl

theorem _get_memory_data_fst (s : MemState) :
    (_get_memory_data s).1 = if s.cache.isEmpty then s.file else s.cache := rfl

theorem _get_memory_data_snd (s : MemState) :
    (_get_memory_data s).2 = { cache := (_get_memory_data s).1, file := s.file } := rfl

theorem get_chat_state_of_find {chat_id : Int} {s : MemState} {st : ChatState}
    (h : storeFind (_get_memory_data s).1 (_chat_key chat_id) = some st) :
    get_chat_state chat_id s = (st, (_get_memory_data s).2) := by
  simp only [get_chat_state, h]

theorem get_chat_state_of_none {chat_id : Int} {s : MemState}
    (h : storeFind (_get_memory_data s).1 (_chat_key chat_id) = none) :
    get_chat_state chat_id s =
      (defaultChatState,
        { (_get_memory_data s).2 with
            cache := storeSet (_get_memory_data s).1 (_chat_key chat_id) defaultChatState }) := by
  simp only [get_chat_state, h]

theorem get_chat_state_after_set (chat_id : Int) (c₀ : Store) (st : ChatState) (f : Store) :
    get_chat_state chat_id ⟨storeSet c₀ (_chat_key chat_id) st, f⟩ =
      (st, ⟨storeSet c₀ (_chat_key chat_id) st, f⟩) := by
  have hne := storeSet_isEmpty c₀ (_chat_key chat_id) st
  have hfind : storeFind
      (_get_memory_data ⟨storeSet c₀ (_chat_key chat_id) st, f⟩).1 (_chat_key chat_id) =
      some st := by
    rw [_get_memory_data_fst]
    simp only [hne, Bool.false_eq_true, if_false]
    rw [storeFind_storeSet, if_pos rfl]
  rw [get_chat_state_of_find hfind, _get_memory_data_snd, _get_memory_data_fst]
  simp [hne]

/-- The indexed `for i in range(n)` loop of `get_messages_for_api` enumerates
exactly the positional pairs of the two windows. -/
theorem range_flatMap_eq_zip (u a : List String) :
    ((List.range (min u.length a.length)).flatMap fun i =>
      [ApiMessage.mk "user" (u.getD i ""), ApiMessage.mk "assistant" (a.getD i "")]) =
    (u.zip a).flatMap fun p => [ApiMessage.mk "user" p.1, ApiMessage.mk "assistant" p.2] := by
  induction u generalizing a with
  | nil => simp
  | cons x xs ih =>
    cases a with
    | nil => simp
    | cons y ys =>
      simp only [List.length_cons, List.zip_cons_cons, List.flatMap_cons]
      rw [Nat.succ_min_succ, List.range_succ_eq_map]
      simp only [List.flatMap_cons, List.flatMap_map, List.getD_cons_zero, List.getD_cons_succ]
      rw [ih ys]

/-- Claim C1: for every store state, chat id and system prompt, the message
sequence built by `get_messages_for_api` is one system entry with the given
prompt, then the `n = min(len(u), len(a))` positional (user, assistant) pairs
taken from the earliest entries of the two windows (their pointwise zip), then
one trailing user entry holding the most recent user message exactly when
`len(u) > n`, i.e. when the assistant window is the shorter one. -/
theorem claim_C1_messages_for_api (chat_id : Int) (system_prompt : String) (s : MemState) :
    (get_messages_for_api chat_id system_prompt s).1 =
      ApiMessage.mk "system" system_prompt ::
        (((get_chat_state chat_id s).1.user_messages.zip
            (get_chat_state chat_id s).1.assistant_messages).flatMap fun p =>
          [ApiMessage.mk "user" p.1, ApiMessage.mk "assistant" p.2]) ++
        (if min (get_chat_state chat_id s).1.user_messages.length
              (get_chat_state chat_id s).1.assistant_messages.length <
            (get_chat_state chat_id s).1.user_messages.length then
          [ApiMessage.mk "user" (get_chat_state chat_id s).1.user_messages.getLast!]
        else []) := by
  simp only [get_messages_for_api]
  rw [range_flatMap_eq_zip]

/-! ## Boundedness of the message windows -/

theorem boundedState_default : boundedState defaultChatState := by
  constructor <;> simp [defaultChatState, MAX_USER_MESSAGES, MAX_ASSISTANT_MESSAGES]

theorem boundedStore_data {s : MemState} (h : boundedMem s) :
    boundedStore (_get_memory_data s).1 := by
  rw [_get_memory_data_fst]
  split
  · exact h.2
  · exact h.1

theorem boundedState_get_chat_state {chat_id : Int} {s : MemState} (h : boundedMem s) :
    boundedState (get_chat_state chat_id s).1 := by
  cases hf : storeFind (_get_memory_data s).1 (_chat_key chat_id) with
  | none =>
    rw [get_chat_state_of_none hf]
    exact boundedState_default
  | some st =>
    rw [get_chat_state_of_find hf]
    exact boundedStore_data h _ _ hf

theorem boundedStore_storeSet {store : Store} {v : ChatState} (h : boundedStore store)
    (hv : boundedState v) (key : String) : boundedStore (storeSet store key v) := by
  intro k st hfind
  rw [storeFind_storeSet] at hfind
  split at hfind
  · simp only [Option.some.injEq] at hfind
    subst hfind
    exact hv
  · exact h k st hfind

theorem boundedStore_cache_get_chat_state {chat_id : Int} {s : MemState} (h : boundedMem s) :
    boundedStore (get_chat_state chat_id s).2.cache := by
  cases hf : storeFind (_get_memory_data s).1 (_chat_key chat_id) with
  | none =>
    rw [get_chat_state_of_none hf]
    exact boundedStore_storeSet (boundedStore_data h) boundedState_default _
  | some st =>
    rw [get_chat_state_of_find hf]
    exact boundedStore_data h

theorem lastSlice_length_le (n : Nat) (l : List α) : (lastSlice n l).length ≤ n := by
  simp only [lastSlice, List.length_drop]
  omega

theorem append_user_message_eq (chat_id : Int) (text : String) (s : MemState) :
    append_user_message chat_id text s =
      ⟨storeSet (get_chat_state chat_id s).2.cache (_chat_key chat_id)
          { (get_chat_state chat_id s).1 with
              user_messages := lastSlice MAX_USER_MESSAGES
                ((get_chat_state chat_id s).1.user_messages ++ [text]) },
        storeSet (get_chat_state chat_id s).2.cache (_chat_key chat_id)
          { (get_chat_state chat_id s).1 with
              user_messages := lastSlice MAX_USER_MESSAGES
                ((get_chat_state chat_id s).1.user_messages ++ [text]) }⟩ := rfl

theorem append_assistant_message_eq (chat_id : Int) (text : String) (s : MemState) :
    append_assistant_message chat_id text s =
      ⟨storeSet (get_chat_state chat_id s).2.cache (_chat_key chat_id)
          { (get_chat_state chat_id s).1 with
              assistant_messages := lastSlice MAX_ASSISTANT_MESSAGES
                ((get_chat_state chat_id s).1.assistant_messages ++ [text]) },
        storeSet (get_chat_state chat_id s).2.cache (_chat_key chat_id)
          { (get_chat_state chat_id s).1 with
              assistant_messages := lastSlice MAX_ASSISTANT_MESSAGES
                ((get_chat_state chat_id s).1.assistant_messages ++ [text]) }⟩ := rfl

theorem boundedMem_append_user (chat_id : Int) (text : String) {s : MemState}
    (h : boundedMem s) : boundedMem (append_user_message chat_id text s) := by
  rw [append_user_message_eq]
  have hc : boundedStore (storeSet (get_chat_state chat_id s).2.cache (_chat_key chat_id)
      { (get_chat_state chat_id s).1 with
          user_messages := lastSlice MAX_USER_MESSAGES
            ((get_chat_state chat_id s).1.user_messages ++ [text]) }) := by
    refine boundedStore_storeSet (boundedStore_cache_get_chat_state h) ⟨?_, ?_⟩ _
    · exact lastSlice_length_le _ _
    · exact (boundedState_get_chat_state h).2
  exact ⟨hc, hc⟩

theorem boundedMem_append_assistant (chat_id : Int) (text : String) {s : MemState}
    (h : boundedMem s) : boundedMem (append_assistant_message chat_id text s) := by
  rw [append_assistant_message_eq]
  have hc : boundedStore (storeSet (get_chat_state chat_id s).2.cache (_chat_key chat_id)
      { (get_chat_state chat_id s).1 with
          assistant_messages := lastSlice MAX_ASSISTANT_MESSAGES
            ((get_chat_state chat_id s).1.assistant_messages ++ [text]) }) := by
    refine boundedStore_storeSet (boundedStore_cache_get_chat_state h) ⟨?_, ?_⟩ _
    · exact (boundedState_get_chat_state h).1
    · exact lastSlice_length_le _ _
  exact ⟨hc, hc⟩

theorem boundedMem_applyOp (op : MemOp) {s : MemState} (h : boundedMem s) :
    boundedMem (applyOp op s) := by
  cases op with
  | user chat_id text => exact boundedMem_append_user chat_id text h
  | assistant chat_id text => exact boundedMem_append_assistant chat_id text h

theorem boundedMem_applyOps (ops : List MemOp) {s : MemState} (h : boundedMem s) :
    boundedMem (applyOps ops s) := by
  induction ops generalizing s with
  | nil => exact h
  | cons op ops ih => exact ih (boundedMem_applyOp op h)

theorem get_chat_state_append_user (chat_id : Int) (text : String) (s : MemState) :
    (get_chat_state chat_id (append_user_message chat_id text s)).1 =
      { (get_chat_state chat_id s).1 with
          user_messages := lastSlice MAX_USER_MESSAGES
            ((get_chat_state chat_id s).1.user_messages ++ [text]) } := by
  rw [append_user_message_eq, get_chat_state_after_set]

theorem get_chat_state_append_assistant (chat_id : Int) (text : String) (s : MemState) :
    (get_chat_state chat_id (append_assistant_message chat_id text s)).1 =
      { (get_chat_state chat_id s).1 with
          assistant_messages := lastSlice MAX_ASSISTANT_MESSAGES
            ((get_chat_state chat_id s).1.assistant_messages ++ [text]) } := by
  rw [append_assistant_message_eq, get_chat_state_after_set]

/-- Claim C2: after any sequence of appends starting from a bounded store, both
windows of every chat stay within `MAX_USER_MESSAGES` / `MAX_ASSISTANT_MESSAGES`
(10); each append pushes the new text at the end and keeps exactly the newest
entries — the new window is the suffix of `old ++ [text]` obtained by dropping
the oldest `len(old) + 1 - MAX` entries, so eviction is FIFO and the surviving
order is preserved; the opposite window is untouched. -/
theorem claim_C2_fifo_bounds :
    (∀ (ops : List MemOp) (s : MemState), boundedMem s →
      boundedMem (applyOps ops s) ∧
      ∀ chat_id : Int,
        (get_chat_state chat_id (applyOps ops s)).1.user_messages.length ≤
            MAX_USER_MESSAGES ∧
          (get_chat_state chat_id (applyOps ops s)).1.assistant_messages.length ≤
            MAX_ASSISTANT_MESSAGES) ∧
    (∀ (chat_id : Int) (text : String) (s : MemState),
      (get_chat_state chat_id (append_user_message chat_id text s)).1.user_messages =
        ((get_chat_state chat_id s).1.user_messages ++ [text]).drop
          ((get_chat_state chat_id s).1.user_messages.length + 1 - MAX_USER_MESSAGES) ∧
      ((get_chat_state chat_id s).1.user_messages ++ [text]).take
          ((get_chat_state chat_id s).1.user_messages.length + 1 - MAX_USER_MESSAGES) ++
        (get_chat_state chat_id (append_user_message chat_id text s)).1.user_messages =
        (get_chat_state chat_id s).1.user_messages ++ [text] ∧
      (get_chat_state chat_id (append_user_message chat_id text s)).1.assistant_messages =
        (get_chat_state chat_id s).1.assistant_messages) ∧
    (∀ (chat_id : Int) (text : String) (s : MemState),
      (get_chat_state chat_id (append_assistant_message chat_id text s)).1.assistant_messages =
        ((get_chat_state chat_id s).1.assistant_messages ++ [text]).drop
          ((get_chat_state chat_id s).1.assistant_messages.length + 1 -
            MAX_ASSISTANT_MESSAGES) ∧
      ((get_chat_state chat_id s).1.assistant_messages ++ [text]).take
          ((get_chat_state chat_id s).1.assistant_messages.length + 1 -
            MAX_ASSISTANT_MESSAGES) ++
        (get_chat_state chat_id (append_assistant_message chat_id text s)).1.assistant_messages =
        (get_chat_state chat_id s).1.assistant_messages ++ [text] ∧
      (get_chat_state chat_id (append_assistant_message chat_id text s)).1.user_messages =
        (get_chat_state chat_id s).1.user_messages) := by
  refine ⟨?_, ?_, ?_⟩
  · intro ops s h
    refine ⟨boundedMem_applyOps ops h, fun chat_id => ?_⟩
    exact boundedState_get_chat_state (boundedMem_applyOps ops h)
  · intro chat_id text s
    rw [get_chat_state_append_user]
    refine ⟨?_, ?_, rfl⟩
    · simp [lastSlice, List.length_append]
    · simp only [lastSlice, List.length_append, List.length_cons, List.length_nil]
      exact List.take_append_drop _ _
  · intro chat_id text s
    rw [get_chat_state_append_assistant]
    refine ⟨?_, ?_, rfl⟩
    · simp [lastSlice, List.length_append]
    · simp only [lastSlice, List.length_append, List.length_cons, List.length_nil]
      exact List.take_append_drop _ _

/-- Witness for `claim_C2_fifo_bounds` starting from the empty store. -/
theorem claim_C2_fifo_bounds_witness :
    boundedMem ⟨[], []⟩ ∧ boundedMem (applyOps [MemOp.user 1 "hi"] ⟨[], []⟩) := by
  have hb : boundedMem (⟨[], []⟩ : MemState) := by
    constructor <;> intro k st hfind <;> simp [storeFind] at hfind
  exact ⟨hb, (claim_C2_fifo_bounds.1 [MemOp.user 1 "hi"] ⟨[], []⟩ hb).1⟩

/-! ## getState (claim C5) -/

/-- Claim C5, counterexample: on first access for a fresh chat id the entry is
created in the in-memory cache, but nothing is written to the backing document
in the same call — after `get_chat_state 1` on an empty state the cache holds
the default entry while the file is still empty. -/
theorem claim_C5_counterexample :
    (get_chat_state 1 ⟨[], []⟩).1 = defaultChatState ∧
      storeFind (get_chat_state 1 ⟨[], []⟩).2.cache (_chat_key 1) = some defaultChatState ∧
      (get_chat_state 1 ⟨[], []⟩).2.file = [] ∧
      storeFind (get_chat_state 1 ⟨[], []⟩).2.file (_chat_key 1) = none := by decide

/-- Claim C5 (amended): for a chat id not yet present, `get_chat_state` returns
the default-valued state and creates that entry in the in-memory store, but
does not write it to the backing document as part of the call (the file is
unchanged; persistence happens only through a later persisting operation); for
a present id it returns the stored state and leaves the data unchanged.  The
function is total, so it never fails. -/
theorem claim_C5_get_state (chat_id : Int) (s : MemState) :
    (storeFind (_get_memory_data s).1 (_chat_key chat_id) = none →
      (get_chat_state chat_id s).1 = defaultChatState ∧
        storeFind (get_chat_state chat_id s).2.cache (_chat_key chat_id) =
          some defaultChatState) ∧
    (∀ st, storeFind (_get_memory_data s).1 (_chat_key chat_id) = some st →
      (get_chat_state chat_id s).1 = st ∧
        (get_chat_state chat_id s).2.cache = (_get_memory_data s).1) ∧
    (get_chat_state chat_id s).2.file = s.file := by
  refine ⟨?_, ?_, ?_⟩
  · intro h
    rw [get_chat_state_of_none h]
    refine ⟨rfl, ?_⟩
    show storeFind (storeSet (_get_memory_data s).1 (_chat_key chat_id) defaultChatState)
      (_chat_key chat_id) = some defaultChatState
    rw [storeFind_storeSet, if_pos rfl]
  · intro st h
    rw [get_chat_state_of_find h]
    exact ⟨rfl, rfl⟩
  · cases hf : storeFind (_get_memory_data s).1 (_chat_key chat_id) with
    | none =>
      rw [get_chat_state_of_none hf]
      rfl
    | some st =>
      rw [get_chat_state_of_find hf]
      rfl

/-- Witness for `claim_C5_get_state`: fresh chat id on the empty state. -/
theorem claim_C5_get_state_witness :
    storeFind (_get_memory_data ⟨[], []⟩).1 (_chat_key 1) = none ∧
      ((get_chat_state 1 ⟨[], []⟩).1 = defaultChatState ∧
        storeFind (get_chat_state 1 ⟨[], []⟩).2.cache (_chat_key 1) =
          some defaultChatState) :=
  ⟨rfl, (claim_C5_get_state 1 ⟨[], []⟩).1 rfl⟩

/-! ## resetHistory (claim C6) -/

/-- Claim C6: for a chat id present in the store, `reset_chat` empties both
message windows while leaving the mode and both token counters exactly as they
were; in particular `get_chat_stats` returns the same pair before and after. -/
theorem claim_C6_reset (chat_id : Int) (s : MemState) (st : ChatState)
    (h : storeFind (_get_memory_data s).1 (_chat_key chat_id) = some st) :
    (get_chat_state chat_id (reset_chat chat_id s)).1.user_messages = [] ∧
      (get_chat_state chat_id (reset_chat chat_id s)).1.assistant_messages = [] ∧
      (get_chat_state chat_id (reset_chat chat_id s)).1.mode = st.mode ∧
      (get_chat_state chat_id (reset_chat chat_id s)).1.input_tokens = st.input_tokens ∧
      (get_chat_state chat_id (reset_chat chat_id s)).1.output_tokens = st.output_tokens ∧
      (get_chat_stats chat_id (reset_chat chat_id s)).1 = (get_chat_stats chat_id s).1 := by
  have hr : reset_chat chat_id s =
      ⟨storeSet (_get_memory_data s).1 (_chat_key chat_id)
          { st with user_messages := [], assistant_messages := [] },
        storeSet (_get_memory_data s).1 (_chat_key chat_id)
          { st with user_messages := [], assistant_messages := [] }⟩ := by
    simp only [reset_chat, h]
    rfl
  simp only [get_chat_stats]
  rw [hr, get_chat_state_after_set, get_chat_state_of_find h]
  exact ⟨rfl, rfl, rfl, rfl, rfl, rfl⟩

/-- Witness for `claim_C6_reset` on a one-entry store with non-trivial state. -/
theorem claim_C6_reset_witness :
    storeFind (_get_memory_data ⟨[("1", ⟨some "m", ["u"], ["a"], 3, 5⟩)], []⟩).1
        (_chat_key 1) = some ⟨some "m", ["u"], ["a"], 3, 5⟩ ∧
      ((get_chat_state 1 (reset_chat 1 ⟨[("1", ⟨some "m", ["u"], ["a"], 3, 5⟩)], []⟩)).1.user_messages = [] ∧
        (get_chat_state 1 (reset_chat 1 ⟨[("1", ⟨some "m", ["u"], ["a"], 3, 5⟩)], []⟩)).1.assistant_messages = [] ∧
        (get_chat_state 1 (reset_chat 1 ⟨[("1", ⟨some "m", ["u"], ["a"], 3, 5⟩)], []⟩)).1.mode =
          (⟨some "m", ["u"], ["a"], 3, 5⟩ : ChatState).mode ∧
        (get_chat_state 1 (reset_chat 1 ⟨[("1", ⟨some "m", ["u"], ["a"], 3, 5⟩)], []⟩)).1.input_tokens =
          (⟨some "m", ["u"], ["a"], 3, 5⟩ : ChatState).input_tokens ∧
        (get_chat_state 1 (reset_chat 1 ⟨[("1", ⟨some "m", ["u"], ["a"], 3, 5⟩)], []⟩)).1.output_tokens =
          (⟨some "m", ["u"], ["a"], 3, 5⟩ : ChatState).output_tokens ∧
        (get_chat_stats 1 (reset_chat 1 ⟨[("1", ⟨some "m", ["u"], ["a"], 3, 5⟩)], []⟩)).1 =
          (get_chat_stats 1 ⟨[("1", ⟨some "m", ["u"], ["a"], 3, 5⟩)], []⟩).1) :=
  ⟨by decide, claim_C6_reset 1 ⟨[("1", ⟨some "m", ["u"], ["a"], 3, 5⟩)], []⟩
    ⟨some "m", ["u"], ["a"], 3, 5⟩ (by decide)⟩

/-! ## addTokens (claim C9) -/

theorem add_tokens_eq (chat_id : Int) (i o : Int) (s : MemState) :
    add_tokens chat_id i o s =
      ⟨storeSet (get_chat_state chat_id s).2.cache (_chat_key chat_id)
          { (get_chat_state chat_id s).1 with
              input_tokens := (get_chat_state chat_id s).1.input_tokens + i,
              output_tokens := (get_chat_state chat_id s).1.output_tokens + o },
        storeSet (get_chat_state chat_id s).2.cache (_chat_key chat_id)
          { (get_chat_state chat_id s).1 with
              input_tokens := (get_chat_state chat_id s).1.input_tokens + i,
              output_tokens := (get_chat_state chat_id s).1.output_tokens + o }⟩ := rfl

theorem get_chat_state_add_tokens (chat_id : Int) (i o : Int) (s : MemState) :
    (get_chat_state chat_id (add_tokens chat_id i o s)).1 =
      { (get_chat_state chat_id s).1 with
          input_tokens := (get_chat_state chat_id s).1.input_tokens + i,
          output_tokens := (get_chat_state chat_id s).1.output_tokens + o } := by
  rw [add_tokens_eq, get_chat_state_after_set]

/-- Claim C9: accumulating two non-negative token delta pairs with `add_tokens`
is order-independent — either order ends with the starting counters plus the
componentwise sums of the deltas. -/
theorem claim_C9_add_tokens (chat_id : Int) (s : MemState) (i₁ o₁ i₂ o₂ : Int)
    (h₁ : 0 ≤ i₁) (h₂ : 0 ≤ o₁) (h₃ : 0 ≤ i₂) (h₄ : 0 ≤ o₂) :
    (get_chat_stats chat_id (add_tokens chat_id i₂ o₂ (add_tokens chat_id i₁ o₁ s))).1 =
        ((get_chat_state chat_id s).1.input_tokens + (i₁ + i₂),
          (get_chat_state chat_id s).1.output_tokens + (o₁ + o₂)) ∧
      (get_chat_stats chat_id (add_tokens chat_id i₁ o₁ (add_tokens chat_id i₂ o₂ s))).1 =
        ((get_chat_state chat_id s).1.input_tokens + (i₁ + i₂),
          (get_chat_state chat_id s).1.output_tokens + (o₁ + o₂)) := by
  simp only [get_chat_stats]
  rw [get_chat_state_add_tokens, get_chat_state_add_tokens,
    get_chat_state_add_tokens, get_chat_state_add_tokens]
  simp [Int.add_assoc, Int.add_comm o₁ o₂, Int.add_comm i₁ i₂]

/-- Witness for `claim_C9_add_tokens` with the spec's deltas (3,5) then (2,0)
on the empty store. -/
theorem claim_C9_add_tokens_witness :
    (0 : Int) ≤ 3 ∧ (0 : Int) ≤ 5 ∧ (0 : Int) ≤ 2 ∧ (0 : Int) ≤ 0 ∧
      ((get_chat_stats 1 (add_tokens 1 2 0 (add_tokens 1 3 5 ⟨[], []⟩))).1 =
          ((get_chat_state 1 ⟨[], []⟩).1.input_tokens + (3 + 2),
            (get_chat_state 1 ⟨[], []⟩).1.output_tokens + (5 + 0)) ∧
        (get_chat_stats 1 (add_tokens 1 3 5 (add_tokens 1 2 0 ⟨[], []⟩))).1 =
          ((get_chat_state 1 ⟨[], []⟩).1.input_tokens + (3 + 2),
            (get_chat_state 1 ⟨[], []⟩).1.output_tokens + (5 + 0))) :=
  ⟨by decide, by decide, by decide, by decide,
    claim_C9_add_tokens 1 ⟨[], []⟩ 3 5 2 0 (by decide) (by decide) (by decide) (by decide)⟩

/-! ## Prompt catalog (claims C7 and C8) -/

/-- Claim C7: `load_prompts` resolves the configured default against the
catalog — whenever `prompts` is non-empty the resolved default is one of its
keys; a configured default that is not a key is replaced by the first
encountered key (`next(iter(prompts), "assistant")`); with an empty mapping the
default ends up `"assistant"`; in particular `default_prompt="missing"` with
`prompts={"a": ...}` resolves to `"a"`. -/
theorem claim_C7_load_prompts :
    (∀ doc : PromptsDoc, doc.prompts ≠ [] →
      (promptsFind (load_prompts doc).prompts (load_prompts doc).default_prompt).isSome =
        true) ∧
    (∀ doc : PromptsDoc,
      promptsFind doc.prompts (doc.default_prompt.getD "assistant") = none →
      (load_prompts doc).default_prompt = (doc.prompts.head?.map Prod.fst).getD "assistant") ∧
    (∀ doc : PromptsDoc, doc.prompts = [] →
      (load_prompts doc).default_prompt = "assistant") ∧
    (∀ m : PromptMode,
      (load_prompts ⟨some "missing", [("a", m)]⟩).default_prompt = "a") := by
  refine ⟨?_, ?_, ?_, ?_⟩
  · intro doc hne
    simp only [load_prompts]
    split
    next hnone =>
      cases hp : doc.prompts with
      | nil => exact absurd hp hne
      | cons kv rest =>
        obtain ⟨k, v⟩ := kv
        simp [hp, promptsFind]
    next hsome =>
      cases ho : promptsFind doc.prompts (doc.default_prompt.getD "assistant") with
      | none => exact absurd (by rw [ho]; rfl) hsome
      | some v => rfl
  · intro doc h
    simp only [load_prompts, h]
    rfl
  · intro doc h
    simp only [load_prompts, h]
    rfl
  · intro m
    rfl

/-- Witness for `claim_C7_load_prompts` on a concrete one-mode catalog. -/
theorem claim_C7_load_prompts_witness :
    ((⟨some "missing", [("a", ⟨none, none, none⟩)]⟩ : PromptsDoc).prompts ≠ [] ∧
      (promptsFind
          (load_prompts ⟨some "missing", [("a", ⟨none, none, none⟩)]⟩).prompts
          (load_prompts ⟨some "missing", [("a", ⟨none, none, none⟩)]⟩).default_prompt).isSome =
        true) ∧
      (load_prompts ⟨some "missing", [("a", (⟨none, none, none⟩ : PromptMode))]⟩).default_prompt =
        "a" :=
  ⟨⟨by decide,
      claim_C7_load_prompts.1 ⟨some "missing", [("a", ⟨none, none, none⟩)]⟩ (by decide)⟩,
    claim_C7_load_prompts.2.2.2 ⟨none, none, none⟩⟩

/-- Claim C8, counterexample: the mode argument `""` is not resolved against
`modes` — Python's `mode_key or default` treats the empty string like `None`,
so with catalog default `"d"` the call returns the `"d"` entry's prompt even
though the claim's chain (resolve `""` → absent → `"assistant"` entry) would
give the `"assistant"` entry's prompt. -/
theorem claim_C8_counterexample :
    get_system_prompt
        ⟨"d", [("d", ⟨none, none, some "P1"⟩), ("assistant", ⟨none, none, some "P2"⟩)]⟩
        (some "") = "P1" ∧
      promptsFind [("d", (⟨none, none, some "P1"⟩ : PromptMode)),
        ("assistant", ⟨none, none, some "P2"⟩)] "" = none ∧
      (promptsFind [("d", (⟨none, none, some "P1"⟩ : PromptMode)),
          ("assistant", ⟨none, none, some "P2"⟩)] "assistant").map
        PromptMode.system_prompt = some (some "P2") ∧
      ("P1" : String) ≠ "P2" := by decide

/-- Claim C8 (amended): `get_system_prompt` always returns a string (it is
total, hence never fails); the given mode — where a null **or empty-string**
argument resolves to the catalog default, by Python falsiness — is looked up in
`modes`; when the resolved key is present that entry's `system_prompt` is
returned (or the hard-coded fallback if the entry lacks one); when it is absent
the `"assistant"` entry is used the same way; when that is also absent the
hard-coded fallback string is returned; in particular an empty catalog with a
null mode yields the hard-coded fallback. -/
theorem claim_C8_get_system_prompt :
    (∀ (pd : PromptsData) (mode_key : Option String) (m : PromptMode),
      promptsFind pd.prompts (resolveModeKey pd mode_key) = some m →
      get_system_prompt pd mode_key = m.system_prompt.getD FALLBACK_SYSTEM_PROMPT) ∧
    (∀ (pd : PromptsData) (mode_key : Option String) (m : PromptMode),
      promptsFind pd.prompts (resolveModeKey pd mode_key) = none →
      promptsFind pd.prompts "assistant" = some m →
      get_system_prompt pd mode_key = m.system_prompt.getD FALLBACK_SYSTEM_PROMPT) ∧
    (∀ (pd : PromptsData) (mode_key : Option String),
      promptsFind pd.prompts (resolveModeKey pd mode_key) = none →
      promptsFind pd.prompts "assistant" = none →
      get_system_prompt pd mode_key = FALLBACK_SYSTEM_PROMPT) ∧
    (∀ d : String, get_system_prompt ⟨d, []⟩ none = FALLBACK_SYSTEM_PROMPT) := by
  refine ⟨?_, ?_, ?_, ?_⟩
  · intro pd mode_key m h
    simp only [get_system_prompt, h]
    rfl
  · intro pd mode_key m h ha
    simp only [get_system_prompt, h, ha]
    rfl
  · intro pd mode_key h ha
    simp only [get_system_prompt, h, ha]
    rfl
  · intro d
    rfl

/-- Witness for `claim_C8_get_system_prompt` on a concrete one-mode catalog. -/
theorem claim_C8_get_system_prompt_witness :
    promptsFind (⟨"a", [("a", ⟨none, none, some "PA"⟩)]⟩ : PromptsData).prompts
        (resolveModeKey ⟨"a", [("a", ⟨none, none, some "PA"⟩)]⟩ none) =
      some ⟨none, none, some "PA"⟩ ∧
      get_system_prompt ⟨"a", [("a", ⟨none, none, some "PA"⟩)]⟩ none =
        (⟨none, none, some "PA"⟩ : PromptMode).system_prompt.getD FALLBACK_SYSTEM_PROMPT :=
  ⟨by decide,
    claim_C8_get_system_prompt.1 ⟨"a", [("a", ⟨none, none, some "PA"⟩)]⟩ none
      ⟨none, none, some "PA"⟩ (by decide)⟩

end RoleBot
